import Mathlib

/-!
Shallow embedding of the kriegsim simulation engine
(src/game/board.py, src/game/units.py, src/game/ai_agent.py,
src/game/game_manager.py, src/game/turn_manager.py), together with
theorems settling the specification claims about it.

Python objects alias each other (a tile's occupant is the very unit object
stored in the manager's unit list); the embedding replaces references by
indices: a tile's occupant is the index of the unit in the unit list, and
the unit's `id` field (set to its list index by the game manager) is used
to write updates back, exactly as the aliased mutation would.
Machine integers are Lean `Int`/`Nat` (Python ints are unbounded).
-/

namespace Kriegsim

/-! ### board.py : terrain -/

inductive TerrainType where
  | flat
  | highGround
  | lowGround
  | trenches
deriving DecidableEq, Repr

structure TerrainModifiers where
  defense : Int
  range_bonus : Int
  movement : Int
deriving DecidableEq, Repr

-- board.py TERRAIN_MODIFIERS
def TERRAIN_MODIFIERS : TerrainType → TerrainModifiers
  | .flat => ⟨0, 0, 0⟩
  | .highGround => ⟨0, 1, 0⟩
  | .lowGround => ⟨-1, 0, 0⟩
  | .trenches => ⟨1, 0, 0⟩

/-! ### board.py : Tile and Board

A `Tile` carries what `board.Tile` carries: coordinates, terrain and the
occupant (as a unit index).  The source's `Tile.pending_attacks` list is
created empty and never read or written anywhere in the engine, so it is
omitted.  The grid is modelled as coordinate-indexed maps; `get_tile`
rebuilds the tile view, which is what every read path in the source does
through `grid[x][y]`. -/

structure Tile where
  x : Int
  y : Int
  terrain : TerrainType
  occupant : Option Nat
deriving DecidableEq, Repr

structure Board where
  width : Nat
  height : Nat
  terrain : Int → Int → TerrainType
  occupant : Int → Int → Option Nat

-- board.py Board.is_valid_position
def Board.is_valid_position (b : Board) (x y : Int) : Bool :=
  decide (0 ≤ x ∧ x < b.width ∧ 0 ≤ y ∧ y < b.height)

-- board.py Board.get_tile
def Board.get_tile (b : Board) (x y : Int) : Option Tile :=
  if b.is_valid_position x y then some ⟨x, y, b.terrain x y, b.occupant x y⟩
  else none

-- the Python statement `tile.occupant = v` for the tile at (x, y)
def Board.setOccupant (b : Board) (x y : Int) (v : Option Nat) : Board :=
  { b with occupant := fun px py => if px = x && py = y then v else b.occupant px py }

-- Python `range(lo, hi)` over integers
def intRange (lo hi : Int) : List Int :=
  (List.range (hi - lo).toNat).map (fun i => lo + i)

-- board.py Board.get_area_tiles: `range(-size//2, size//2 + 1)` in each
-- axis (Python floor division), keeping in-bounds tiles.
def Board.get_area_tiles (b : Board) (center_x center_y : Int) (size : Int) : List Tile :=
  (intRange ((-size).fdiv 2) (size.fdiv 2 + 1)).flatMap (fun dx =>
    (intRange ((-size).fdiv 2) (size.fdiv 2 + 1)).filterMap (fun dy =>
      b.get_tile (center_x + dx) (center_y + dy)))

/-! ### units.py : unit kinds, stats, per-unit state -/

inductive UnitType where
  | soldierSquad
  | tank
  | mortarSquad
deriving DecidableEq, Repr

structure UnitStats where
  hp : Int
  attack : Int
  defense : Int
  speed : Nat
  range : Nat
  aoe : Bool
  delay : Nat
deriving DecidableEq, Repr

-- units.py get_default_unit_stats / UNIT_STATS
def UNIT_STATS : UnitType → UnitStats
  | .soldierSquad => { hp := 1, attack := 1, defense := 1, speed := 1, range := 2, aoe := false, delay := 0 }
  | .tank => { hp := 1, attack := 5, defense := 1, speed := 1, range := 5, aoe := true, delay := 0 }
  | .mortarSquad => { hp := 5, attack := 1, defense := 1, speed := 1, range := 10, aoe := true, delay := 1 }

-- units.py class Unit (named GameUnit because `Unit` is a core Lean type)
structure GameUnit where
  unitType : UnitType
  owner : Nat
  x : Int
  y : Int
  hp : Int
  has_moved : Bool
  has_attacked : Bool
  id : Nat
deriving DecidableEq, Repr

def GameUnit.max_hp (u : GameUnit) : Int := (UNIT_STATS u.unitType).hp

def GameUnit.attack_power (u : GameUnit) : Int := (UNIT_STATS u.unitType).attack

-- units.py Unit.defense_power
def GameUnit.defense_power (u : GameUnit) (terrain : Option TerrainType) : Int :=
  let base_def := (UNIT_STATS u.unitType).defense
  if u.unitType = .soldierSquad ∧ terrain = some .trenches then base_def + 1
  else base_def

def GameUnit.movement_speed (u : GameUnit) : Nat := (UNIT_STATS u.unitType).speed

-- units.py Unit.attack_range
def GameUnit.attack_range (u : GameUnit) (terrain : Option TerrainType) : Nat :=
  let base_range := (UNIT_STATS u.unitType).range
  if terrain = some .highGround then base_range + 1
  else base_range

def GameUnit.can_attack_area (u : GameUnit) : Bool := (UNIT_STATS u.unitType).aoe

def GameUnit.attack_delay (u : GameUnit) : Nat := (UNIT_STATS u.unitType).delay

-- units.py Unit.can_move_to: in bounds, unoccupied, Manhattan distance
-- at most the movement speed.
def GameUnit.can_move_to (u : GameUnit) (x y : Int) (b : Board) : Bool :=
  match b.get_tile x y with
  | none => false
  | some tile =>
    if tile.occupant.isSome then false
    else decide ((u.x - x).natAbs + (u.y - y).natAbs ≤ u.movement_speed)

-- units.py Unit.calculate_damage
def GameUnit.calculate_damage (self : GameUnit) (target : GameUnit) (terrain : TerrainType) : Int :=
  let attack := self.attack_power
  let defense := target.defense_power (some terrain)
  let defense := defense + (TERRAIN_MODIFIERS terrain).defense
  let defense := if terrain = .lowGround then defense - 1 else defense
  max 0 (attack - defense)

-- units.py Unit.reset_turn
def GameUnit.reset_turn (u : GameUnit) : GameUnit :=
  { u with has_moved := false, has_attacked := false }

-- units.py create_unit / Unit.__init__ (id is set by the game manager)
def create_unit (unit_type : UnitType) (owner : Nat) (x y : Int) : GameUnit :=
  { unitType := unit_type, owner := owner, x := x, y := y,
    hp := (UNIT_STATS unit_type).hp, has_moved := false, has_attacked := false, id := 0 }

-- units.py Unit.move_to: vacate the source tile, claim the destination
-- tile, update the unit's coordinates, set has_moved.  `uid` is the index
-- of the unit in the unit list (the Python `self` alias); if the index
-- does not resolve there is no object to run the method on.
def move_to (b : Board) (units : List GameUnit) (uid : Nat) (x y : Int) :
    Board × List GameUnit :=
  match units[uid]? with
  | none => (b, units)
  | some u =>
    let b1 := if (b.get_tile u.x u.y).isSome then b.setOccupant u.x u.y none else b
    let b2 := if (b1.get_tile x y).isSome then b1.setOccupant x y (some uid) else b1
    (b2, units.set uid { u with x := x, y := y, has_moved := true })

-- loop body of the AoE branch of units.py Unit.attack_target: a tile in
-- the area yields a (x, y, damage) entry when it holds an enemy occupant.
def aoeHitResult (units : List GameUnit) (self : GameUnit) (tile : Tile) :
    Option (Int × Int × Int) :=
  match tile.occupant with
  | none => none
  | some occId =>
    match units[occId]? with
    | none => none
    | some occ =>
      if occ.owner ≠ self.owner then
        some (tile.x, tile.y, self.calculate_damage occ tile.terrain)
      else none

-- units.py Unit.attack_target: build the list of (x, y, damage) results
-- and set has_attacked on the attacker.  Damage is NOT applied here.
def attack_target (b : Board) (units : List GameUnit) (uid : Nat) (target_x target_y : Int) :
    List GameUnit × List (Int × Int × Int) :=
  match units[uid]? with
  | none => (units, [])
  | some self =>
    let results :=
      if self.can_attack_area then
        (b.get_area_tiles target_x target_y 2).filterMap (aoeHitResult units self)
      else
        match b.get_tile target_x target_y with
        | none => []
        | some tile =>
          match tile.occupant with
          | none => []
          | some occId =>
            match units[occId]? with
            | none => []
            | some occ =>
              if occ.owner ≠ self.owner then
                [(target_x, target_y, self.calculate_damage occ tile.terrain)]
              else []
    (units.set uid { self with has_attacked := true }, results)

/-! ### ai_agent.py : GameState and the action-space codec -/

-- ai_agent.py class GameState (the tensor encoding is not modelled; the
-- codec only reads board and units, plus the agent's own player_id)
structure GameState where
  board : Board
  units : List GameUnit
  current_player : Nat

-- ai_agent.py: `[u for u in game_state.units if u.owner == self.player_id and u.hp > 0]`
def myUnits (st : GameState) (player_id : Nat) : List GameUnit :=
  st.units.filter (fun u => decide (u.owner = player_id ∧ 0 < u.hp))

-- the double loop `for dx in range(-2, 3): for dy in range(-2, 3)`
def offsets5x5 : List (Int × Int) :=
  (intRange (-2) 3).flatMap (fun dx => (intRange (-2) 3).map (fun dy => (dx, dy)))

-- ai_agent.py decode_action: the move_actions table (5x5 grid around the
-- unit, excluding the center), built with `if dx != 0 or dy != 0`
def move_actions : List (Int × Int) :=
  offsets5x5.filter (fun d => d.1 != 0 || d.2 != 0)

-- the double loop `for x in range(width): for y in range(height)`
def boardCoords (w h : Nat) : List (Int × Int) :=
  (List.range w).flatMap (fun (x : Nat) =>
    (List.range h).map (fun (y : Nat) => ((x : Int), (y : Int))))

-- `current_tile.terrain` for the tile the unit stands on
def currentTerrain (b : Board) (x y : Int) : Option TerrainType :=
  (b.get_tile x y).map (fun t => t.terrain)

-- the append condition of the attack loop of get_valid_actions:
-- `distance <= attack_range` and the target tile holds an enemy occupant
def attackListed (st : GameState) (player_id : Nat) (u : GameUnit) (x y : Int) : Bool :=
  (decide ((u.x - x).natAbs + (u.y - y).natAbs ≤
      u.attack_range (currentTerrain st.board u.x u.y))) &&
  (match st.board.get_tile x y with
   | none => false
   | some target_tile =>
     match target_tile.occupant with
     | none => false
     | some occId =>
       match st.units[occId]? with
       | none => false
       | some occ => occ.owner != player_id)

-- per-unit body of the get_valid_actions loop: threading the running
-- action_id counter exactly as the source does.  The center offset (0,0)
-- is skipped by `continue` WITHOUT incrementing action_id; the skip
-- branch for a unit that has moved or attacked advances the counter by
-- 25 + width*height.
def unitActionIds (st : GameState) (player_id : Nat) (u : GameUnit) (aid : Nat) :
    Nat × List Nat :=
  if !u.has_moved && !u.has_attacked then
    let m := offsets5x5.foldl
      (fun (acc : Nat × List Nat) d =>
        if d.1 == 0 && d.2 == 0 then acc
        else (acc.1 + 1,
          if u.can_move_to (u.x + d.1) (u.y + d.2) st.board then acc.2 ++ [acc.1]
          else acc.2))
      (aid, [])
    (boardCoords st.board.width st.board.height).foldl
      (fun (acc : Nat × List Nat) c =>
        (acc.1 + 1,
          if attackListed st player_id u c.1 c.2 then acc.2 ++ [acc.1] else acc.2))
      m
  else
    (aid + (25 + st.board.width * st.board.height), [])

-- ai_agent.py AIAgent.get_valid_actions
def get_valid_actions (st : GameState) (player_id : Nat) : List Nat :=
  let r := (myUnits st player_id).foldl
    (fun (acc : Nat × List Nat) u =>
      let c := unitActionIds st player_id u acc.1
      (c.1, acc.2 ++ c.2))
    (0, [])
  if r.2.isEmpty then [0] else r.2

-- the decoded action dictionary (Design note: a tagged union instead of
-- the stringly-typed dict); the unit entry is the selected unit object
inductive Action where
  | noop
  | move (unit : GameUnit) (target : Int × Int)
  | attack (unit : GameUnit) (target : Int × Int)
deriving DecidableEq, Repr

-- ai_agent.py AIAgent.decode_action
def decode_action (st : GameState) (player_id : Nat) (action : Nat) : Action :=
  let my_units := myUnits st player_id
  if my_units.isEmpty then .noop
  else
    let actions_per_unit := 25 + st.board.width * st.board.height
    let unit_idx := action / actions_per_unit
    match my_units[unit_idx]? with
    | none => .noop
    | some unit =>
      let local_action := action % actions_per_unit
      if local_action < 25 then
        match move_actions[local_action]? with
        | some d => .move unit (unit.x + d.1, unit.y + d.2)
        | none => .noop
      else
        let attack_action := local_action - 25
        .attack unit (((attack_action % st.board.width : Nat) : Int),
                      ((attack_action / st.board.width : Nat) : Int))

/-! ### turn_manager.py : TurnManager -/

structure TurnManager where
  players : List Nat
  current : Nat
  phase : String
  turn_count : Nat
deriving DecidableEq, Repr

-- turn_manager.py TurnManager.next_turn
def TurnManager.next_turn (tm : TurnManager) : TurnManager :=
  { tm with current := (tm.current + 1) % tm.players.length,
            turn_count := tm.turn_count + 1,
            phase := "main" }

-- turn_manager.py TurnManager.get_current_player (`players[current]`;
-- with the two-player list and the modulus above the index is in range)
def TurnManager.get_current_player (tm : TurnManager) : Nat :=
  tm.players.getD tm.current 0

/-! ### game_manager.py : GameManager -/

-- the simulation-state attributes of game_manager.GameManager (screen,
-- clock, agents, statistics and UI fields are rendering/learning glue)
structure GameManager where
  board : Board
  units : List GameUnit
  turn_manager : TurnManager
  turn_count : Nat
  max_turns : Nat

def GameManager.get_game_state (g : GameManager) : GameState :=
  ⟨g.board, g.units, g.turn_manager.get_current_player⟩

-- game_manager.py check_victory_conditions: the per-owner live lists
def aliveUnits (g : GameManager) (player : Nat) : List GameUnit :=
  g.units.filter (fun u => decide (u.owner = player ∧ 0 < u.hp))

-- game_manager.py GameManager.check_victory_conditions
def GameManager.check_victory_conditions (g : GameManager) : Option Nat :=
  let alive0 := aliveUnits g 0
  let alive1 := aliveUnits g 1
  if alive0.length = 0 then some 1
  else if alive1.length = 0 then some 0
  else if g.max_turns ≤ g.turn_count then
    if alive1.length < alive0.length then some 0
    else if alive0.length < alive1.length then some 1
    else none
  else none

-- damage-application loop body of game_manager.py execute_action
def apply_damage (s : Board × List GameUnit) (r : Int × Int × Int) :
    Board × List GameUnit :=
  match s.1.get_tile r.1 r.2.1 with
  | none => s
  | some target_tile =>
    match target_tile.occupant with
    | none => s
    | some occId =>
      match s.2[occId]? with
      | none => s
      | some target_unit =>
        let target_unit := { target_unit with hp := max 0 (target_unit.hp - r.2.2) }
        let s2 := (s.1, s.2.set occId target_unit)
        if target_unit.hp ≤ 0 then (s2.1.setOccupant r.1 r.2.1 none, s2.2)
        else s2

-- game_manager.py GameManager.execute_action (the reward float is
-- advisory output to the learner and is not modelled)
def GameManager.execute_action (g : GameManager) (action : Action) : GameManager :=
  match action with
  | .noop => g
  | .move mu target =>
    match g.units[mu.id]? with
    | none => g
    | some unit =>
      if unit.can_move_to target.1 target.2 g.board then
        let r := move_to g.board g.units mu.id target.1 target.2
        { g with board := r.1, units := r.2 }
      else g
  | .attack mu target =>
    match g.units[mu.id]? with
    | none => g
    | some unit =>
      let distance := (unit.x - target.1).natAbs + (unit.y - target.2).natAbs
      let attack_range := unit.attack_range (currentTerrain g.board unit.x unit.y)
      if distance ≤ attack_range ∧ ¬ unit.has_attacked then
        let ar := attack_target g.board g.units mu.id target.1 target.2
        let final := ar.2.foldl apply_damage (g.board, ar.1)
        { g with board := final.1, units := final.2 }
      else g

-- game_manager.py GameManager.reset_units_turn_state
def GameManager.reset_units_turn_state (g : GameManager) : GameManager :=
  { g with units := g.units.map (fun u => if 0 < u.hp then u.reset_turn else u) }

-- game_manager.py GameManager.next_turn
def GameManager.next_turn (g : GameManager) : GameManager :=
  let g1 := g.reset_units_turn_state
  let g2 := { g1 with turn_manager := g1.turn_manager.next_turn }
  if g2.turn_manager.get_current_player = 0 then
    { g2 with turn_count := g2.turn_count + 1 }
  else g2

/-! ### Concrete test states

Small boards exercising the claims.  The codec and combat functions take
the board dimensions from the state, so a 5x5 board gives the same code
paths as the 20x20 default with cheaper evaluation. -/

-- player 0 SoldierSquad on (0,0), player 1 SoldierSquad on (0,1), flat 5x5
def c1u0 : GameUnit := create_unit .soldierSquad 0 0 0
def c1u1 : GameUnit := { create_unit .soldierSquad 1 0 1 with id := 1 }

def c1Board : Board :=
  { width := 5, height := 5,
    terrain := fun _ _ => .flat,
    occupant := fun x y =>
      if x == 0 && y == 0 then some 0
      else if x == 0 && y == 1 then some 1
      else none }

def c1St : GameState := ⟨c1Board, [c1u0, c1u1], 0⟩

-- player 0 MortarSquad on (0,0), player 1 SoldierSquad on LowGround (0,1)
def c2u0 : GameUnit := create_unit .mortarSquad 0 0 0
def c2u1 : GameUnit := { create_unit .soldierSquad 1 0 1 with id := 1 }

def c2Board : Board :=
  { width := 5, height := 5,
    terrain := fun x y => if x == 0 && y == 1 then .lowGround else .flat,
    occupant := fun x y =>
      if x == 0 && y == 0 then some 0
      else if x == 0 && y == 1 then some 1
      else none }

def c2GM : GameManager :=
  { board := c2Board, units := [c2u0, c2u1],
    turn_manager := ⟨[0, 1], 0, "main", 0⟩,
    turn_count := 0, max_turns := 200 }

-- attacker/defender pairs for the damage-formula claims
def c3tank : GameUnit := create_unit .tank 0 0 0
def c3soldier : GameUnit := { create_unit .soldierSquad 1 0 1 with id := 1 }

-- like c1St but the player-0 unit has already moved (and not attacked)
def c5u0 : GameUnit := { create_unit .soldierSquad 0 0 0 with has_moved := true }
def c5St : GameState := ⟨c1Board, [c5u0, c1u1], 0⟩

-- lone player-0 SoldierSquad on (0,0) of a flat 5x5 board
def c6u0 : GameUnit := create_unit .soldierSquad 0 0 0

def c6Board : Board :=
  { width := 5, height := 5,
    terrain := fun _ _ => .flat,
    occupant := fun x y => if x == 0 && y == 0 then some 0 else none }

def c6GM : GameManager :=
  { board := c6Board, units := [c6u0],
    turn_manager := ⟨[0, 1], 0, "main", 0⟩,
    turn_count := 0, max_turns := 200 }

/-- collect is the specification of a counter-threading enumeration loop:
walking a list with a running id, it records the id of every element
satisfying `p`.  Used to characterise the get_valid_actions folds. -/
def collect (p : α → Bool) : Nat → List α → List Nat
  | _, [] => []
  | aid, c :: t => (if p c then [aid] else []) ++ collect p (aid + 1) t

-- both players with one live unit each, at and below the turn ceiling
def c7Draw : GameManager :=
  { board := c1Board, units := [c1u0, c1u1],
    turn_manager := ⟨[0, 1], 0, "main", 0⟩,
    turn_count := 200, max_turns := 200 }

def c7Going : GameManager :=
  { board := c1Board, units := [c1u0, c1u1],
    turn_manager := ⟨[0, 1], 0, "main", 0⟩,
    turn_count := 0, max_turns := 200 }

-- player 0 has two live units at the ceiling, player 1 one
def c7Extra : GameUnit := { create_unit .soldierSquad 0 1 1 with id := 2 }

def c7P0Wins : GameManager :=
  { board := c1Board, units := [c1u0, c1u1, c7Extra],
    turn_manager := ⟨[0, 1], 0, "main", 0⟩,
    turn_count := 200, max_turns := 200 }

/-! ## Theorems -/

theorem foldl_collect (p : α → Bool) :
    ∀ (l : List α) (aid : Nat) (acc : List Nat),
      l.foldl (fun (a : Nat × List Nat) c =>
          (a.1 + 1, if p c then a.2 ++ [a.1] else a.2)) (aid, acc) =
        (aid + l.length, acc ++ collect p aid l)
  | [], aid, acc => by simp [collect]
  | c :: t, aid, acc => by
    simp only [List.foldl_cons, collect]
    rw [foldl_collect p t (aid + 1)]
    by_cases h : p c <;> simp [h, List.append_assoc] <;> omega

theorem mem_collect (p : α → Bool) :
    ∀ (l : List α) (aid i : Nat),
      i ∈ collect p aid l ↔ ∃ k c, l[k]? = some c ∧ p c = true ∧ i = aid + k
  | [], aid, i => by simp [collect]
  | c :: t, aid, i => by
    simp only [collect, List.mem_append]
    rw [mem_collect p t (aid + 1) i]
    constructor
    · rintro (h | ⟨k, c', hk, hp, hi⟩)
      · by_cases hc : p c
        · simp [hc] at h
          exact ⟨0, c, by simp, hc, by omega⟩
        · simp [hc] at h
      · exact ⟨k + 1, c', by simpa using hk, hp, by omega⟩
    · rintro ⟨k, c', hk, hp, hi⟩
      cases k with
      | zero =>
        left
        simp only [List.getElem?_cons_zero, Option.some.injEq] at hk
        subst hk
        simp [hp]
        omega
      | succ k =>
        right
        exact ⟨k, c', by simpa using hk, hp, by omega⟩

theorem foldl_skip {β : Type _} (q : α → Bool) (f : β → α → β) :
    ∀ (l : List α) (init : β),
      l.foldl (fun acc a => if q a then acc else f acc a) init =
        (l.filter (fun a => !q a)).foldl f init
  | [], _ => rfl
  | a :: t, init => by
    by_cases h : q a <;>
      simp [List.foldl_cons, List.filter_cons, h, foldl_skip q f t]

theorem boardCoords_succ (w h : Nat) :
    boardCoords (w + 1) h =
      boardCoords w h ++ (List.range h).map (fun (y : Nat) => ((w : Int), (y : Int))) := by
  unfold boardCoords
  rw [List.range_succ, List.flatMap_append]
  simp only [List.flatMap_cons, List.flatMap_nil, List.append_nil]

theorem boardCoords_length (w h : Nat) : (boardCoords w h).length = w * h := by
  induction w with
  | zero => simp [boardCoords]
  | succ n ih =>
    rw [boardCoords_succ, List.length_append, ih, List.length_map, List.length_range]
    ring

theorem boardCoords_getElem (w h x y : Nat) (hx : x < w) (hy : y < h) :
    (boardCoords w h)[x * h + y]? = some ((↑x : Int), (↑y : Int)) := by
  induction w with
  | zero => omega
  | succ n ih =>
    rw [boardCoords_succ]
    rcases Nat.lt_or_ge x n with hxn | hxn
    · have hlt : x * h + y < (boardCoords n h).length := by
        rw [boardCoords_length]
        have h1 : x * h + y < (x + 1) * h := by rw [Nat.succ_mul]; omega
        exact Nat.lt_of_lt_of_le h1 (Nat.mul_le_mul_right h (by omega))
      rw [List.getElem?_append, if_pos hlt]
      exact ih hxn
    · have hx' : x = n := by omega
      subst hx'
      rw [List.getElem?_append_right (by rw [boardCoords_length]; exact Nat.le_add_right _ _)]
      rw [boardCoords_length, Nat.add_sub_cancel_left]
      rw [List.getElem?_map, List.getElem?_range hy]
      rfl

theorem boardCoords_getElem_inv (w h k : Nat) (c : Int × Int)
    (hk : (boardCoords w h)[k]? = some c) :
    ∃ x y : Nat, x < w ∧ y < h ∧ k = x * h + y ∧ c = ((↑x : Int), (↑y : Int)) := by
  have hlen : k < w * h := by
    by_contra hge
    rw [← boardCoords_length w h] at hge
    rw [List.getElem?_eq_none_iff.mpr (by omega)] at hk
    exact Option.noConfusion hk
  have hh : 0 < h := by
    rcases Nat.eq_zero_or_pos h with h0 | h0
    · subst h0; simp at hlen
    · exact h0
  have hdiv : k / h < w := (Nat.div_lt_iff_lt_mul hh).mpr hlen
  have hmod : k % h < h := Nat.mod_lt _ hh
  have hsum : k / h * h + k % h = k := by
    rw [Nat.mul_comm]
    exact Nat.div_add_mod k h
  have := boardCoords_getElem w h (k / h) (k % h) hdiv hmod
  rw [hsum, hk] at this
  exact ⟨k / h, k % h, hdiv, hmod, hsum.symm, Option.some.inj this⟩

theorem offsets5x5_filter_eq :
    offsets5x5.filter (fun d => !(d.1 == 0 && d.2 == 0)) = move_actions := by decide

theorem move_actions_length : move_actions.length = 24 := by decide

/-- C1: the action codec does not round-trip.  On a flat 5x5 board with the
acting player's SoldierSquad on (0,0) and an enemy on (0,1),
get_valid_actions lists index 25, which it assigned to the attack on the
enemy tile (0,1); decode_action maps 25 to an attack on (0,0), the
attacker's own tile (which holds no enemy).  The enumeration advances its
counter only 24 times over the movement sub-block (the (0,0) offset is
skipped without increment) and numbers attack targets x-major
(24 + x*height + y), while the decoder assumes a 25-wide movement
sub-block and y-major attack targets (25 + y*width + x). -/
theorem C1_codec_mismatch :
    25 ∈ get_valid_actions c1St 0 ∧
    decode_action c1St 0 25 = Action.attack c1u0 (0, 0) ∧
    c1Board.occupant 0 0 = some 0 ∧ c1u0.owner = 0 ∧
    c1Board.occupant 0 1 = some 1 ∧ c1u1.owner = 1 := by decide

/-- C2: the 1-turn mortar attack delay is not enforced.  A MortarSquad
(attack_delay = 1) of player 0 attacks the enemy SoldierSquad standing on
LowGround at (0,1); in the very same execute_action call the target's hp
drops from 1 to 0 and its tile is vacated, instead of the damage being
scheduled for the start of the attacker's next turn. -/
theorem C2_no_mortar_delay :
    c2u0.attack_delay = 1 ∧ c2u1.hp = 1 ∧
    ((c2GM.execute_action (.attack c2u0 (0, 1))).units[1]?).map GameUnit.hp = some 0 ∧
    (c2GM.execute_action (.attack c2u0 (0, 1))).board.occupant 0 1 = none := by decide

/-- C3 counterexample: against a defender on LowGround the damage formula
does not equal max(0, attack - (baseDefense - 1)): a Tank (attack 5)
against a SoldierSquad (base defense 1) on LowGround deals 6 damage, not
the 5 the claimed net -1 adjustment would give, because the LowGround
terrain-modifier defense entry is -1 (not 0) and the extra pre-clamp
subtraction of 1 comes on top of it. -/
theorem C3_lowground_cex :
    c3tank.calculate_damage c3soldier .lowGround ≠
      max 0 (c3tank.attack_power - (c3soldier.defense_power none - 1)) ∧
    (TERRAIN_MODIFIERS .lowGround).defense = -1 := by decide

/-- C3 amended: a defender on LowGround has its effective defense lowered
by exactly 2 relative to defense-neutral terrain: the LowGround
terrain-modifier defense entry is -1 and the additional pre-clamp
subtraction is 1, so damage = max(0, attackerPower - (baseDefense - 2))
(a defender on LowGround never receives the SoldierSquad-in-Trenches
instance bonus, so defense_power none is its base defense). -/
theorem C3_lowground_amended (a t : GameUnit) :
    a.calculate_damage t .lowGround =
      max 0 (a.attack_power - (t.defense_power none - 2)) ∧
    (TERRAIN_MODIFIERS .lowGround).defense = -1 := by
  constructor
  · simp only [GameUnit.calculate_damage, GameUnit.defense_power, TERRAIN_MODIFIERS]
    norm_num
    rw [if_neg (by simp), if_neg (by simp)]
    congr 1
    ring
  · rfl

/-- C4: damage is max(0, attack - defense) and never negative; a
SoldierSquad attacking a Tank on Flat terrain deals 0 damage; a Tank
attacking a SoldierSquad standing in Trenches deals exactly 2 damage,
with the effective defense decomposing as base 1 + instance bonus 1 +
terrain modifier 1 = 3. -/
theorem C4_damage_formula :
    (∀ (a t : GameUnit) (terr : TerrainType), 0 ≤ a.calculate_damage t terr) ∧
    (∀ (a t : GameUnit) (terr : TerrainType),
      a.calculate_damage t terr =
        max 0 (a.attack_power -
          (t.defense_power (some terr) + (TERRAIN_MODIFIERS terr).defense -
            (if terr = .lowGround then 1 else 0)))) ∧
    c3soldier.calculate_damage c3tank .flat = 0 ∧
    c3tank.calculate_damage c3soldier .trenches = 2 ∧
    c3soldier.defense_power (some .trenches) + (TERRAIN_MODIFIERS .trenches).defense = 3 := by
  refine ⟨fun a t terr => ?_, fun a t terr => ?_, by decide, by decide, by decide⟩
  · simp only [GameUnit.calculate_damage]
    exact le_max_left 0 _
  · simp only [GameUnit.calculate_damage]
    split_ifs with h
    · rfl
    · congr 1
      ring

/-- C5 counterexample: a unit that has moved but not attacked contributes
no action indices at all.  The player-0 SoldierSquad has has_moved = true,
has_attacked = false and a live enemy in attack range on (0,1)
(attackListed is true for that tile), yet get_valid_actions returns only
the [0] fallback: the whole block was skipped. -/
theorem C5_moved_unit_skipped :
    c5u0.has_moved = true ∧ c5u0.has_attacked = false ∧
    attackListed c5St 0 c5u0 0 1 = true ∧
    get_valid_actions c5St 0 = [0] := by decide

/-- C6 counterexample: a direct request to execute an already-illegal move
is not rejected: Unit.move_to does not re-check legality.  Moving the
SoldierSquad (speed 1) from (0,0) to (0,3) fails can_move_to, yet calling
move_to directly performs the move: the unit ends at (0,3) with has_moved
set and the board records it as occupant of (0,3). -/
theorem C6_direct_illegal_move_executes :
    c6u0.can_move_to 0 3 c6Board = false ∧
    (move_to c6Board [c6u0] 0 0 3).2 = [{ c6u0 with x := 0, y := 3, has_moved := true }] ∧
    (move_to c6Board [c6u0] 0 0 3).1.occupant 0 3 = some 0 := by decide

/-- C7 counterexample: the turn-ceiling draw is not distinguishable from
the non-terminal outcome.  With the ceiling reached and one live unit per
player, check_victory_conditions returns none - exactly the value it
returns for an ongoing match below the ceiling. -/
theorem C7_draw_indistinguishable :
    c7Draw.max_turns ≤ c7Draw.turn_count ∧
    (aliveUnits c7Draw 0).length = 1 ∧ (aliveUnits c7Draw 1).length = 1 ∧
    c7Going.turn_count < c7Going.max_turns ∧
    c7Draw.check_victory_conditions = none ∧
    c7Going.check_victory_conditions = none := by decide

theorem next_turn_turn_manager (g : GameManager) :
    g.next_turn.turn_manager = g.turn_manager.next_turn := by
  simp only [GameManager.next_turn, GameManager.reset_units_turn_state]
  split <;> rfl

theorem next_turn_units (g : GameManager) :
    g.next_turn.units = g.units.map (fun u => if 0 < u.hp then u.reset_turn else u) := by
  simp only [GameManager.next_turn, GameManager.reset_units_turn_state]
  split <;> rfl

theorem next_turn_turn_count (g : GameManager) :
    g.next_turn.turn_count =
      if (g.turn_manager.next_turn).get_current_player = 0
      then g.turn_count + 1 else g.turn_count := by
  simp only [GameManager.next_turn, GameManager.reset_units_turn_state]
  split <;> rename_i h <;> simp [h]

/-- C6 amended: when a move request fails the legality check (out of
bounds, occupied destination, or Manhattan distance exceeding move speed),
GameManager.execute_action changes no board or unit state (silent no-op,
never a crash, no boolean rejection signal beyond the zero reward); but a
direct request to Unit.move_to is NOT rejected: move_to re-checks nothing
and performs any requested move unconditionally, updating the unit's
position and has_moved flag. -/
theorem C6_illegal_move_paths :
    (∀ (g : GameManager) (mu : GameUnit) (tx ty : Int) (v : GameUnit),
        g.units[mu.id]? = some v → v.can_move_to tx ty g.board = false →
        g.execute_action (.move mu (tx, ty)) = g) ∧
    (∀ (b : Board) (units : List GameUnit) (uid : Nat) (x y : Int) (u : GameUnit),
        units[uid]? = some u →
        (move_to b units uid x y).2 =
          units.set uid { u with x := x, y := y, has_moved := true }) := by
  constructor
  · intro g mu tx ty v hv hc
    simp [GameManager.execute_action, hv, hc]
  · intro b units uid x y u hu
    simp [move_to, hu]

/-- C6 witness: the SoldierSquad at (0,0) with speed 1 cannot move to
(0,3); execute_action on that request leaves the manager state unchanged,
while the direct move_to call rewrites the unit anyway. -/
theorem C6_illegal_move_witness :
    c6GM.execute_action (.move c6u0 (0, 3)) = c6GM ∧
    (move_to c6Board [c6u0] 0 0 3).2 =
      [c6u0].set 0 { c6u0 with x := 0, y := 3, has_moved := true } :=
  ⟨C6_illegal_move_paths.1 c6GM c6u0 0 3 c6u0 (by decide) (by decide),
   C6_illegal_move_paths.2 c6Board [c6u0] 0 0 3 c6u0 (by decide)⟩

/-- C7 amended: when the turn counter has reached max_turns and both
players still have live units, check_victory_conditions returns the player
with more live units as winner when the counts differ, and returns none
when the counts are equal - the same value it returns for a non-terminal
ongoing state, so the draw is not distinguishable from the continue
outcome in this result. -/
theorem C7_victory_at_ceiling (g : GameManager)
    (h0 : 0 < (aliveUnits g 0).length) (h1 : 0 < (aliveUnits g 1).length) :
    (g.max_turns ≤ g.turn_count →
      ((aliveUnits g 0).length = (aliveUnits g 1).length →
        g.check_victory_conditions = none) ∧
      ((aliveUnits g 1).length < (aliveUnits g 0).length →
        g.check_victory_conditions = some 0) ∧
      ((aliveUnits g 0).length < (aliveUnits g 1).length →
        g.check_victory_conditions = some 1)) ∧
    (g.turn_count < g.max_turns → g.check_victory_conditions = none) := by
  simp only [GameManager.check_victory_conditions]
  constructor
  · intro hc
    refine ⟨fun hl => ?_, fun hl => ?_, fun hl => ?_⟩ <;>
      split_ifs <;> first | rfl | omega
  · intro hc
    split_ifs <;> first | rfl | omega

/-- C7 witness: at the ceiling, equal counts give none, a player-0
majority gives some 0; below the ceiling the ongoing state also gives
none. -/
theorem C7_victory_witness :
    c7Draw.check_victory_conditions = none ∧
    c7P0Wins.check_victory_conditions = some 0 ∧
    c7Going.check_victory_conditions = none :=
  ⟨((C7_victory_at_ceiling c7Draw (by decide) (by decide)).1 (by decide)).1 (by decide),
   ((C7_victory_at_ceiling c7P0Wins (by decide) (by decide)).1 (by decide)).2.1 (by decide),
   (C7_victory_at_ceiling c7Going (by decide) (by decide)).2 (by decide)⟩

/-- C8: the match's turn counter (GameManager.turn_count) is unchanged by
every individual action, and with the two-player rotation [0, 1] a single
sequencer advance from player 0 leaves it unchanged (current becomes
player 1), while the full rotation back to player 0 increments it by
exactly 1. -/
theorem C8_turn_counter (g : GameManager) :
    (∀ a : Action, (g.execute_action a).turn_count = g.turn_count) ∧
    (g.turn_manager.players = [0, 1] → g.turn_manager.current = 0 →
      (g.next_turn).turn_count = g.turn_count ∧
      (g.next_turn).turn_manager.current = 1 ∧
      (g.next_turn.next_turn).turn_count = g.turn_count + 1 ∧
      (g.next_turn.next_turn).turn_manager.current = 0) := by
  constructor
  · intro a
    rcases a with _ | ⟨mu, t⟩ | ⟨mu, t⟩
    · rfl
    · cases hv : g.units[mu.id]? <;> simp [GameManager.execute_action, hv] <;> split <;> rfl
    · cases hv : g.units[mu.id]? <;> simp [GameManager.execute_action, hv] <;> split <;> rfl
  · intro hp hc
    have hcur1 : (g.turn_manager.next_turn).get_current_player = 1 := by
      simp [TurnManager.next_turn, TurnManager.get_current_player, hp, hc]
    have e3 : (g.next_turn).turn_manager.current = 1 := by
      rw [next_turn_turn_manager]
      simp [TurnManager.next_turn, hp, hc]
    have e2 : (g.next_turn).turn_manager.players = [0, 1] := by
      rw [next_turn_turn_manager]
      simp [TurnManager.next_turn, hp]
    have e4 : (g.next_turn).turn_count = g.turn_count := by
      rw [next_turn_turn_count, if_neg]
      simp [hcur1]
    have hcur2 : ((g.next_turn).turn_manager.next_turn).get_current_player = 0 := by
      simp [TurnManager.next_turn, TurnManager.get_current_player, e2, e3]
    have e5 : (g.next_turn.next_turn).turn_count = g.turn_count + 1 := by
      rw [next_turn_turn_count, if_pos hcur2, e4]
    have e6 : (g.next_turn.next_turn).turn_manager.current = 0 := by
      rw [next_turn_turn_manager]
      simp [TurnManager.next_turn, e2, e3]
    exact ⟨e4, e3, e5, e6⟩

/-- C8 witness: on the initial manager state (players [0, 1], current 0,
turn_count 0) a noop action keeps the counter at 0, one advance keeps it
at 0 with player 1 to act, and the wrap back to player 0 raises it to 1. -/
theorem C8_turn_counter_witness :
    (c6GM.execute_action .noop).turn_count = c6GM.turn_count ∧
    (c6GM.next_turn).turn_count = 0 ∧
    (c6GM.next_turn).turn_manager.current = 1 ∧
    (c6GM.next_turn.next_turn).turn_count = 1 ∧
    (c6GM.next_turn.next_turn).turn_manager.current = 0 :=
  ⟨(C8_turn_counter c6GM).1 .noop,
   ((C8_turn_counter c6GM).2 rfl rfl).1,
   ((C8_turn_counter c6GM).2 rfl rfl).2.1,
   ((C8_turn_counter c6GM).2 rfl rfl).2.2.1,
   ((C8_turn_counter c6GM).2 rfl rfl).2.2.2⟩

/-- C10: GameManager.next_turn resets has_moved and has_attacked to false
for every unit with hp > 0 of either player, leaves units with hp <= 0
entirely untouched, and modifies no other per-unit field (for a live unit
the result is exactly the input with the two flags cleared). -/
theorem C10_next_turn_reset (g : GameManager) (i : Nat) (u : GameUnit)
    (h : g.units[i]? = some u) :
    ∃ u', (g.next_turn).units[i]? = some u' ∧
      (0 < u.hp → u' = { u with has_moved := false, has_attacked := false }) ∧
      (u.hp ≤ 0 → u' = u) := by
  have hunits : (g.next_turn).units =
      g.units.map (fun v => if 0 < v.hp then v.reset_turn else v) := by
    exact next_turn_units g
  refine ⟨if 0 < u.hp then u.reset_turn else u, ?_, ?_, ?_⟩
  · rw [hunits, List.getElem?_map, h]
    rfl
  · intro hhp
    rw [if_pos hhp]
    rfl
  · intro hhp
    rw [if_neg (by omega)]

/-- C10 witness: the live SoldierSquad at index 0 of the initial manager
state comes out of next_turn with both flags false and all other fields
unchanged. -/
theorem C10_next_turn_reset_witness :
    ∃ u', (c6GM.next_turn).units[0]? = some u' ∧
      (0 < c6u0.hp → u' = { c6u0 with has_moved := false, has_attacked := false }) ∧
      (c6u0.hp ≤ 0 → u' = c6u0) :=
  C10_next_turn_reset c6GM 0 c6u0 (by decide)

theorem unitActionIds_skip (st : GameState) (player_id : Nat) (u : GameUnit) (aid : Nat)
    (h : (u.has_moved || u.has_attacked) = true) :
    unitActionIds st player_id u aid =
      (aid + (25 + st.board.width * st.board.height), []) := by
  have hcond : (!u.has_moved && !u.has_attacked) = false := by
    cases hm : u.has_moved <;> cases ha : u.has_attacked <;> simp_all
  simp [unitActionIds, hcond]

theorem unitActionIds_active (st : GameState) (player_id : Nat) (u : GameUnit) (aid : Nat)
    (h : (u.has_moved || u.has_attacked) = false) :
    unitActionIds st player_id u aid =
      (aid + 24 + st.board.width * st.board.height,
       collect (fun d => u.can_move_to (u.x + d.1) (u.y + d.2) st.board) aid move_actions ++
       collect (fun c => attackListed st player_id u c.1 c.2) (aid + 24)
         (boardCoords st.board.width st.board.height)) := by
  have hm : u.has_moved = false := by cases hm : u.has_moved <;> simp_all
  have ha : u.has_attacked = false := by cases ha : u.has_attacked <;> simp_all
  unfold unitActionIds
  rw [if_pos (by simp [hm, ha])]
  rw [foldl_skip (fun d => d.1 == 0 && d.2 == 0)
      (fun (acc : Nat × List Nat) d =>
        (acc.1 + 1,
          if u.can_move_to (u.x + d.1) (u.y + d.2) st.board then acc.2 ++ [acc.1]
          else acc.2))
      offsets5x5 (aid, ([] : List Nat))]
  rw [offsets5x5_filter_eq]
  rw [foldl_collect (fun d => u.can_move_to (u.x + d.1) (u.y + d.2) st.board)
      move_actions aid []]
  rw [move_actions_length]
  rw [foldl_collect (fun c => attackListed st player_id u c.1 c.2)
      (boardCoords st.board.width st.board.height) (aid + 24)]
  rw [boardCoords_length]
  simp

theorem mem_collect_boardCoords (p : Int × Int → Bool) (w h base i : Nat) :
    i ∈ collect p base (boardCoords w h) ↔
      ∃ x y : Nat, x < w ∧ y < h ∧ p ((x : Int), (y : Int)) = true ∧
        i = base + (x * h + y) := by
  rw [mem_collect]
  constructor
  · rintro ⟨k, c, hk, hp, hi⟩
    obtain ⟨x, y, hx, hy, hkxy, hc⟩ := boardCoords_getElem_inv w h k c hk
    subst hc
    exact ⟨x, y, hx, hy, hp, by omega⟩
  · rintro ⟨x, y, hx, hy, hp, hi⟩
    exact ⟨x * h + y, ((x : Int), (y : Int)),
      boardCoords_getElem w h x y hx hy, hp, hi⟩

/-- C5 amended: a unit's whole action block is skipped (contributes no
indices, with the counter advanced by 25 + width*height) exactly when the
unit has already moved OR already attacked this turn - not only when both
flags are set; in particular a unit that has moved but not attacked
contributes nothing.  A unit with neither flag set contributes exactly the
indices of the move_actions offsets whose destination passes can_move_to
(numbered aid + k for table entry k) and of the board tiles that are
within attack range with a live enemy occupant (numbered
aid + 24 + x*height + y). -/
theorem C5_enumeration_blocks (st : GameState) (player_id : Nat) (u : GameUnit) (aid : Nat) :
    ((u.has_moved || u.has_attacked) = true →
      unitActionIds st player_id u aid =
        (aid + (25 + st.board.width * st.board.height), [])) ∧
    ((u.has_moved || u.has_attacked) = false →
      ∀ i, i ∈ (unitActionIds st player_id u aid).2 ↔
        ((∃ k d, move_actions[k]? = some d ∧
            u.can_move_to (u.x + d.1) (u.y + d.2) st.board = true ∧ i = aid + k) ∨
         (∃ x y : Nat, x < st.board.width ∧ y < st.board.height ∧
            attackListed st player_id u x y = true ∧
            i = aid + 24 + (x * st.board.height + y)))) := by
  refine ⟨unitActionIds_skip st player_id u aid, fun h i => ?_⟩
  rw [unitActionIds_active st player_id u aid h]
  dsimp only
  rw [List.mem_append, mem_collect, mem_collect_boardCoords]

/-- C5 witness: the moved-but-not-attacked SoldierSquad's block yields no
indices and advances the counter by 25 + 25; a fresh unit on the c1 state
does list index 25 for the attack on the enemy at (0,1). -/
theorem C5_enumeration_witness :
    unitActionIds c5St 0 c5u0 0 = (50, []) ∧
    25 ∈ (unitActionIds c1St 0 c1u0 0).2 :=
  ⟨(C5_enumeration_blocks c5St 0 c5u0 0).1 (by decide),
   (((C5_enumeration_blocks c1St 0 c1u0 0).2 (by decide)) 25).mpr
     (Or.inr ⟨0, 1, by decide, by decide, by decide, by decide⟩)⟩

theorem area_tiles_two (b : Board) (tx ty : Int) :
    b.get_area_tiles tx ty 2 =
      ([-1, 0, 1] : List Int).flatMap (fun dx =>
        ([-1, 0, 1] : List Int).filterMap (fun dy =>
          b.get_tile (tx + dx) (ty + dy))) := by
  have hr : intRange ((-(2 : Int)).fdiv 2) ((2 : Int).fdiv 2 + 1) = [-1, 0, 1] := by decide
  rw [Board.get_area_tiles, hr]

theorem get_tile_eq_some (b : Board) (X Y : Int) (t : Tile) :
    b.get_tile X Y = some t ↔
      (b.is_valid_position X Y = true ∧ t = ⟨X, Y, b.terrain X Y, b.occupant X Y⟩) := by
  rw [Board.get_tile]
  simp only [Option.ite_none_right_eq_some, Option.some.injEq]
  constructor
  · rintro ⟨hv, ht⟩
    exact ⟨hv, ht.symm⟩
  · rintro ⟨hv, ht⟩
    exact ⟨hv, ht.symm⟩

theorem mem_area_tiles (b : Board) (tx ty : Int) (t : Tile) :
    t ∈ b.get_area_tiles tx ty 2 ↔
      (b.get_tile t.x t.y = some t ∧
        (t.x - tx).natAbs ≤ 1 ∧ (t.y - ty).natAbs ≤ 1) := by
  rw [area_tiles_two]
  simp only [List.mem_flatMap, List.mem_filterMap]
  constructor
  · rintro ⟨dx, hdx, dy, hdy, ht⟩
    rw [get_tile_eq_some] at ht
    obtain ⟨hv, hteq⟩ := ht
    subst hteq
    simp only [List.mem_cons, List.not_mem_nil, or_false] at hdx hdy
    refine ⟨?_, ?_, ?_⟩
    · rw [get_tile_eq_some]
      exact ⟨hv, rfl⟩
    · dsimp only
      rcases hdx with h | h | h <;> subst h <;> omega
    · dsimp only
      rcases hdy with h | h | h <;> subst h <;> omega
  · rintro ⟨ht, hx, hy⟩
    refine ⟨t.x - tx, ?_, t.y - ty, ?_, ?_⟩
    · simp only [List.mem_cons, List.not_mem_nil, or_false]
      omega
    · simp only [List.mem_cons, List.not_mem_nil, or_false]
      omega
    · rw [show tx + (t.x - tx) = t.x by ring, show ty + (t.y - ty) = t.y by ring]
      exact ht

theorem aoeHitResult_eq_some (units : List GameUnit) (self : GameUnit) (tile : Tile)
    (r : Int × Int × Int) :
    aoeHitResult units self tile = some r ↔
      ∃ occId occ, tile.occupant = some occId ∧ units[occId]? = some occ ∧
        occ.owner ≠ self.owner ∧
        r = (tile.x, tile.y, self.calculate_damage occ tile.terrain) := by
  unfold aoeHitResult
  cases ho : tile.occupant with
  | none => simp
  | some occId =>
    cases hu : units[occId]? with
    | none =>
      simp only [hu]
      constructor
      · intro h
        exact Option.noConfusion h
      · rintro ⟨occId', occ', h1, h2, _, _⟩
        cases h1
        rw [hu] at h2
        exact Option.noConfusion h2
    | some occ =>
      simp only [hu]
      by_cases how : occ.owner ≠ self.owner
      · rw [if_pos how]
        simp only [Option.some.injEq]
        constructor
        · intro h
          exact ⟨occId, occ, rfl, hu, how, h.symm⟩
        · rintro ⟨occId', occ', h1, h2, _, h4⟩
          cases h1
          rw [hu] at h2
          cases h2
          exact h4.symm
      · rw [if_neg how]
        constructor
        · intro h
          exact Option.noConfusion h
        · rintro ⟨occId', occ', h1, h2, how', _⟩
          cases h1
          rw [hu] at h2
          cases h2
          exact absurd how' how

theorem attack_target_results (b : Board) (units : List GameUnit) (uid : Nat)
    (u : GameUnit) (tx ty : Int)
    (hu : units[uid]? = some u) (haoe : u.can_attack_area = true) :
    (attack_target b units uid tx ty).2 =
      (b.get_area_tiles tx ty 2).filterMap (aoeHitResult units u) := by
  simp [attack_target, hu, haoe]

theorem get_tile_map_coords (b : Board) (X Y : Int) :
    (b.get_tile X Y).map (fun t => (t.x, t.y)) =
      if b.is_valid_position X Y then some (X, Y) else none := by
  rw [Board.get_tile]
  split <;> rfl

theorem area_coords_nodup (b : Board) (tx ty : Int) :
    ((b.get_area_tiles tx ty 2).map (fun t => (t.x, t.y))).Nodup := by
  rw [area_tiles_two, List.map_flatMap]
  simp only [List.map_filterMap, get_tile_map_coords]
  rw [List.nodup_flatMap]
  constructor
  · intro dx _
    refine List.Nodup.filterMap ?_ (by decide)
    intro a a' bp h1 h2
    rw [Option.mem_def, Option.ite_none_right_eq_some, Option.some.injEq] at h1 h2
    have e1 : bp.2 = ty + a := by rw [← h1.2]
    have e2 : bp.2 = ty + a' := by rw [← h2.2]
    omega
  · have hdisj : ∀ dx dx' : Int, dx ≠ dx' →
        List.Disjoint
          (([-1, 0, 1] : List Int).filterMap (fun dy =>
            if b.is_valid_position (tx + dx) (ty + dy) then some (tx + dx, ty + dy)
            else none))
          (([-1, 0, 1] : List Int).filterMap (fun dy =>
            if b.is_valid_position (tx + dx') (ty + dy) then some (tx + dx', ty + dy)
            else none)) := by
      intro dx dx' hne p hp hp'
      rw [List.mem_filterMap] at hp hp'
      obtain ⟨dy, _, h1⟩ := hp
      obtain ⟨dy', _, h2⟩ := hp'
      rw [Option.ite_none_right_eq_some, Option.some.injEq] at h1 h2
      have e1 : p.1 = tx + dx := by rw [← h1.2]
      have e2 : p.1 = tx + dx' := by rw [← h2.2]
      omega
    refine .cons ?_ (.cons ?_ (.cons ?_ .nil))
    · intro dx' hdx'
      simp only [List.mem_cons, List.not_mem_nil, or_false] at hdx'
      simp only [Function.onFun]
      rcases hdx' with h | h <;> subst h <;> exact hdisj _ _ (by decide)
    · intro dx' hdx'
      simp only [List.mem_cons, List.not_mem_nil, or_false] at hdx'
      simp only [Function.onFun]
      subst hdx'
      exact hdisj _ _ (by decide)
    · intro dx' hdx'
      exact absurd hdx' (List.not_mem_nil _)

theorem filterMap_map_sublist {α β γ : Type _} (l : List α) (F : α → Option β)
    (g : β → γ) (gc : α → γ) (h : ∀ a r, F a = some r → g r = gc a) :
    ((l.filterMap F).map g).Sublist (l.map gc) := by
  induction l with
  | nil => simp
  | cons a t ih =>
    rw [List.filterMap_cons, List.map_cons]
    cases hF : F a with
    | none => exact ih.cons _
    | some r =>
      rw [List.map_cons, h a r hF]
      exact ih.cons₂ _

/-- C9: for an area-effect attacker, the tiles considered by
attack_target are exactly the in-bounds tiles differing from the target
by at most 1 in each axis independently (the 3x3 window around the target,
clipped to board bounds, including the target tile), one (position,
damage) entry is produced for precisely the enemy-owned occupants of that
window, and the produced positions are pairwise distinct (one pair per
affected enemy occupant). -/
theorem C9_area_effect (b : Board) (units : List GameUnit) (uid : Nat) (u : GameUnit)
    (tx ty : Int) (hu : units[uid]? = some u) (haoe : u.can_attack_area = true) :
    (∀ t : Tile, t ∈ b.get_area_tiles tx ty 2 ↔
       (b.get_tile t.x t.y = some t ∧
         (t.x - tx).natAbs ≤ 1 ∧ (t.y - ty).natAbs ≤ 1)) ∧
    (∀ x y d : Int, (x, y, d) ∈ (attack_target b units uid tx ty).2 ↔
       (b.is_valid_position x y = true ∧
        (x - tx).natAbs ≤ 1 ∧ (y - ty).natAbs ≤ 1 ∧
        ∃ occId occ, b.occupant x y = some occId ∧ units[occId]? = some occ ∧
          occ.owner ≠ u.owner ∧ d = u.calculate_damage occ (b.terrain x y))) ∧
    ((attack_target b units uid tx ty).2.map (fun r => (r.1, r.2.1))).Nodup := by
  refine ⟨mem_area_tiles b tx ty, ?_, ?_⟩
  · intro x y d
    rw [attack_target_results b units uid u tx ty hu haoe, List.mem_filterMap]
    constructor
    · rintro ⟨tile, htile, hres⟩
      rw [mem_area_tiles] at htile
      obtain ⟨hget, hbx, hby⟩ := htile
      rw [get_tile_eq_some] at hget
      obtain ⟨hv, hteq⟩ := hget
      rw [aoeHitResult_eq_some] at hres
      obtain ⟨occId, occ, hocc, hou, how, hr⟩ := hres
      obtain ⟨hx, hy, hd⟩ : x = tile.x ∧ y = tile.y ∧ d = u.calculate_damage occ tile.terrain := by
        have := hr
        simp only [Prod.mk.injEq] at this
        exact ⟨this.1, this.2.1, this.2.2⟩
      subst hx; subst hy; subst hd
      have hxx : tile.x = tile.x := rfl
      refine ⟨?_, hbx, hby, occId, occ, ?_, hou, how, ?_⟩
      · rw [hteq]; exact hv
      · rw [hteq] at hocc; exact hocc
      · rw [hteq]
    · rintro ⟨hv, hbx, hby, occId, occ, hocc, hou, how, hd⟩
      refine ⟨⟨x, y, b.terrain x y, b.occupant x y⟩, ?_, ?_⟩
      · rw [mem_area_tiles]
        exact ⟨by rw [get_tile_eq_some]; exact ⟨hv, rfl⟩, hbx, hby⟩
      · rw [aoeHitResult_eq_some]
        exact ⟨occId, occ, hocc, hou, how, by rw [hd]⟩
  · rw [attack_target_results b units uid u tx ty hu haoe]
    refine List.Nodup.sublist
      (filterMap_map_sublist _ (aoeHitResult units u)
        (fun r => (r.1, r.2.1)) (fun t => (t.x, t.y)) ?_)
      (area_coords_nodup b tx ty)
    intro t r hr
    rw [aoeHitResult_eq_some] at hr
    obtain ⟨_, _, _, _, _, hr⟩ := hr
    rw [hr]

/-- C9 witness: the mortar's area attack on (0,1) of the c2 board produces
the single entry (0, 1, 2) - the enemy SoldierSquad on LowGround - and its
position list has no duplicates. -/
theorem C9_area_witness :
    ((attack_target c2Board [c2u0, c2u1] 0 0 1).2.map (fun r => (r.1, r.2.1))).Nodup ∧
    (0, 1, 2) ∈ (attack_target c2Board [c2u0, c2u1] 0 0 1).2 :=
  ⟨(C9_area_effect c2Board [c2u0, c2u1] 0 c2u0 0 1 (by decide) (by decide)).2.2,
   ((C9_area_effect c2Board [c2u0, c2u1] 0 c2u0 0 1 (by decide) (by decide)).2.1 0 1 2).mpr
     ⟨by decide, by decide, by decide, 1, c2u1, by decide, by decide, by decide, by decide⟩⟩

end Kriegsim
